import Mathlib

/-!
Shallow embedding of `src/packages/hydrogen/src/foundation/Script/loadScript.ts`.

The TypeScript module keeps four module-level registries plus a module-level
mutable blocklist array, and one entry point, `loadScript`, which injects a
`<script>` element into the document.  Browser facilities are made explicit:

* `window.location.pathname` and `performance.now()` are passed as arguments
  (`pathname`, `now`);
* `requestAnimationFrame(cb)` is modelled by appending the deferred DOM
  operation to a `schedule` list; the `appendScript`/`removeScript` closures
  each perform their single one-shot DOM mutation, so one scheduled callback
  is one `FrameOp`;
* created `<script>` elements are stored in creation order in `elems`
  (paired with the ScriptKey they were created for); an element is referenced
  by its index; `setAttribute` calls are recorded in order, the effective
  value of an attribute being the last write;
* the promise returned for a fresh external load is identified by a token
  `ScriptResult.pending pid` (promise identity matters for the claims about
  returning "the very same promise object"); every
  `Promise.resolve({status, event})` value is `ScriptResult.resolved status
  event`;
* JavaScript `Map` and `Set` are association lists / lists preserving
  insertion order, matching the iteration semantics of the originals.
-/

/-- Value of the JS `children` prop: absent, a string, or an array of strings
(`ScriptProps['children']`). -/
inductive Children where
  | nothing
  | str (s : String)
  | arr (l : List String)
deriving DecidableEq, Repr

/-- The `ScriptProps` descriptor passed to `loadScript`.  The callback props
are tracked by presence only (whether the caller supplied one).  `extra`
holds the remaining own enumerable entries of the props object, in insertion
order, with `none` standing for a key whose value is `undefined`; keys of a
JS object are unique and distinct from the named fields.  A JS object field
that is absent and one that is `undefined` destructure identically, so the
named fields use `Option` with `none` for both. -/
structure ScriptProps where
  children : Children := .nothing
  dangerouslySetInnerHTML : Option String := none
  id : Option String := none
  onError : Bool := false
  onLoad : Bool := false
  onReady : Bool := false
  src : Option String := none
  load : Option String := none
  target : String := "body"
  reload : Bool := false
  extra : List (String × Option String) := []
deriving DecidableEq, Repr

/-- JS truthiness of an optional string (`undefined` and `''` are falsy). -/
def truthy? (o : Option String) : Bool :=
  !((o.getD "") == "")

/-- Line 64: `const key = (id ?? '') + (src ?? '')`. -/
def scriptKey (p : ScriptProps) : String :=
  (p.id.getD "") ++ (p.src.getD "")

/-- Lines 20-29: the module-level `ignoreProps` array in its initial state.
The array is mutated in place by line 125, so the current value lives in the
loader state. -/
def ignorePropsInit : List String :=
  ["children", "dangerouslySetInnerHTML", "onError", "onLoad", "onReady",
   "load", "target", "reload"]

/-- Lines 31-37: the `DOMAttributeNames` react-prop-to-DOM-attribute map. -/
def DOMAttributeNames : List (String × String) :=
  [("acceptCharset", "accept-charset"), ("className", "class"),
   ("htmlFor", "for"), ("httpEquiv", "http-equiv"), ("noModule", "noModule")]

namespace KV

/-- `Map.prototype.get` on an insertion-ordered association list (the keys of
a JS `Map` are unique, so the first hit is the entry). -/
def get? : List (String × α) → String → Option α
  | [], _ => none
  | kv :: t, k => if kv.1 == k then some kv.2 else get? t k

/-- `Map.prototype.set`: overwrite in place if the key exists (keeping the
insertion order of a JS `Map`), otherwise append at the end. -/
def set : List (String × α) → String → α → List (String × α)
  | [], k, v => [(k, v)]
  | kv :: t, k, v => if kv.1 == k then (k, v) :: t else kv :: set t k v

/-- `Map.prototype.delete`. -/
def del : List (String × α) → String → List (String × α)
  | [], _ => []
  | kv :: t, k => if kv.1 == k then del t k else kv :: del t k

end KV

/-- `Set.prototype.add` on an insertion-ordered list. -/
def addKey (l : List String) (k : String) : List String :=
  if l.contains k then l else l ++ [k]

/-- `Set.prototype.delete`. -/
def delKey (l : List String) (k : String) : List String :=
  l.filter (fun x => !(x == k))

/-- The `ScriptCacheProps` value (`{promise?, script?}`) stored in
`ScriptCache`; both references are modelled by identity tokens. -/
structure ScriptCacheProps where
  promise : Option Nat := none
  script : Option Nat := none
deriving DecidableEq, Repr

/-- A created `<script>` element: its body and its `setAttribute` calls in
order. -/
structure ScriptElement where
  innerHTML : String := ""
  textContent : String := ""
  attrSets : List (String × String) := []
deriving DecidableEq, Repr

/-- `element.setAttribute(n, v)`. -/
def ScriptElement.setAttribute (e : ScriptElement) (n v : String) : ScriptElement :=
  { e with attrSets := e.attrSets ++ [(n, v)] }

/-- The effective value of attribute `n`: the last `setAttribute` write. -/
def ScriptElement.getAttribute (e : ScriptElement) (n : String) : Option String :=
  (e.attrSets.reverse.find? (fun kv => kv.1 == n)).map (fun kv => kv.2)

/-- One deferred DOM mutation scheduled through `requestAnimationFrame`:
the one-shot closures produced by `appendScript` (lines 215-223) and
`removeScript` (lines 228-236). -/
inductive FrameOp where
  | append (target : String) (elem : Nat)
  | remove (target : String) (elem : Nat)
deriving DecidableEq, Repr

/-- The element a scheduled frame callback refers to. -/
def FrameOp.elemId : FrameOp → Nat
  | .append _ e => e
  | .remove _ e => e

/-- Whether a scheduled frame callback appends (rather than removes). -/
def FrameOp.isAppend : FrameOp → Bool
  | .append _ _ => true
  | .remove _ _ => false

/-- The whole module-level mutable state of `loadScript.ts`, together with
the modelled browser state (frame-callback schedule and created elements). -/
structure LoaderState where
  startTimeCache : List (String × Nat) := []
  prevPathCache : List (String × String) := []
  loadCache : List String := []
  scriptCache : List (String × ScriptCacheProps) := []
  ignoreProps : List String := ignorePropsInit
  schedule : List FrameOp := []
  elems : List (String × ScriptElement) := []
deriving DecidableEq, Repr

/-- The state at module load: all registries empty, blocklist untouched. -/
def initState : LoaderState := {}

/-- The value `loadScript` returns: either an already-settled
`Promise.resolve({status, event})` or the pending load promise identified by
`pid`. -/
inductive ScriptResult where
  | resolved (status : Bool) (event : String)
  | pending (pid : Nat)
deriving DecidableEq, Repr

/-- `Object.entries(props)` restricted to the entries that can ever reach
`setAttribute`: the eight names of `ignorePropsInit` are present in the
blocklist in every state the module can reach (elements are only ever pushed
onto `ignoreProps`, never removed), so the `children`,
`dangerouslySetInnerHTML`, callback, `load`, `target` and `reload` entries
are always skipped by the spread loop and need not be materialized.  The
`id` and `src` entries and the remaining own entries are kept in order. -/
def ScriptProps.entries (p : ScriptProps) : List (String × Option String) :=
  (match p.id with | some v => [("id", some v)] | none => []) ++
  (match p.src with | some v => [("src", some v)] | none => []) ++
  p.extra

/-- `k.toLowerCase()`, modelled character-wise (attribute names are ASCII,
where JS `toLowerCase` and the character-wise lowercase agree). -/
def toLowerJS (s : String) : String :=
  ⟨s.data.map Char.toLower⟩

/-- Lines 147-148: `DOMAttributeNames[k] || k.toLowerCase()` (every value in
the map is a nonempty string, so `||` never falls through on a hit). -/
def attrNameOf (k : String) : String :=
  (KV.get? DOMAttributeNames k).getD (toLowerJS k)

/-- Lines 142-150: spread the props entries onto the element, skipping
`undefined` values and blocklisted names. -/
def spreadProps (ign : List String) (entries : List (String × Option String))
    (sc : ScriptElement) : ScriptElement :=
  entries.foldl
    (fun sc kv =>
      match kv.2 with
      | none => sc
      | some v =>
          if ign.contains kv.1 then sc
          else sc.setAttribute (attrNameOf kv.1) v)
    sc

/-- Lines 128-139: the element body, from `dangerouslySetInnerHTML` (trimmed
`__html`, where a falsy `__html` is replaced by `''` first) or else from
truthy `children` (a string, or an array joined with `''`; the empty string
default is falsy and leaves the element bare). -/
def bodyElement (p : ScriptProps) : ScriptElement :=
  if p.dangerouslySetInnerHTML.isSome then
    { innerHTML := (p.dangerouslySetInnerHTML.getD "").trim }
  else
    match p.children with
    | .nothing => {}
    | .str s => if s == "" then {} else { textContent := s }
    | .arr l => { textContent := String.join l }

/-- Lines 119-167: build the fresh `<script>` element, given the effective
blocklist `ign` (the state of `ignoreProps` after lines 124-126 ran for this
call): the element body, then the attribute spread, then the partytown
`type` override for the `inWorker` strategy, then the `data-load` tag. -/
def buildElement (p : ScriptProps) (ign : List String) : ScriptElement :=
  let script := spreadProps ign p.entries (bodyElement p)
  let script :=
    if (p.load.getD "afterHydration") == "inWorker" then
      script.setAttribute "type" "text/partytown"
    else script
  if truthy? p.src then
    script.setAttribute "data-load" (p.load.getD "afterHydration")
  else
    script.setAttribute "data-load" "inline"

/-- Lines 82-91: the reload purge.  If an instance is cached for the key and
holds a script element, remove the key from `LoadCache`, `ScriptCache` and
`StartTimeCache` and schedule the element's removal from the target on the
next available frame.  (`PrevPathCache` is not touched here.) -/
def purgeForReload (key target : String) (st : LoaderState) : LoaderState :=
  match KV.get? st.scriptCache key with
  | some sc =>
      match sc.script with
      | some e =>
          { st with
            loadCache := delKey st.loadCache key,
            scriptCache := KV.del st.scriptCache key,
            startTimeCache := KV.del st.startTimeCache key,
            schedule := st.schedule ++ [.remove target e] }
      | none => st
  | none => st

/-- Lines 115-209: the fresh-creation path.  Mark the key as loading, push
`async`/`defer` onto the module-level blocklist when no `src` is present
(line 124-126 mutates the array in place), build and schedule the new
element, and either cache `{promise, script}` and return the pending promise
(when a `src` is present) or return the resolved inline-script result.  The
fresh element and its load promise are identified by the element's index. -/
def createScript (p : ScriptProps) (key : String) (st : LoaderState) :
    ScriptResult × LoaderState :=
  let st := { st with loadCache := addKey st.loadCache key }
  let ign :=
    if truthy? p.src then st.ignoreProps else st.ignoreProps ++ ["async", "defer"]
  let st := { st with ignoreProps := ign }
  let script := buildElement p ign
  let e := st.elems.length
  let st := { st with
    elems := st.elems ++ [(key, script)],
    schedule := st.schedule ++ [.append p.target e] }
  if truthy? p.src then
    (.pending e, { st with scriptCache := KV.set st.scriptCache key ⟨some e, some e⟩ })
  else
    (.resolved true "inline script", st)

/-- Lines 94-209: after the already-loaded / reload handling.  Record a start
timestamp if none is present; if an instance is already cached for the key,
mark the key as loading and return the cached pending promise — or, when the
entry holds no promise, the defensive `Script load promise not found` result;
otherwise create a fresh element. -/
def loadScriptMain (p : ScriptProps) (key : String) (now : Nat)
    (st : LoaderState) : ScriptResult × LoaderState :=
  let st :=
    if (KV.get? st.startTimeCache key).isSome then st
    else { st with startTimeCache := KV.set st.startTimeCache key now }
  match KV.get? st.scriptCache key with
  | some sc =>
      let st := { st with loadCache := addKey st.loadCache key }
      match sc.promise with
      | some pid => (.pending pid, st)
      | none => (.resolved false "Script load promise not found", st)
  | none => createScript p key st

/-- Line 67: `pathChanged = prevPathname ? pathname !== prevPathname : false`
(an empty-string `prevPathname` is falsy in JS, so it never counts as a
change). -/
def pathChangedOf (prev : Option String) (pathname : String) : Bool :=
  match prev with
  | some prev => if prev == "" then false else pathname != prev
  | none => false

/-- Lines 48-210: the `loadScript` entry point.  `pathname` is
`window.location.pathname` at call time and `now` is `performance.now()`.
Tracks the last pathname, short-circuits an already-loaded key unless a
reload is triggered by a navigation change, purges and reschedules on
reload, then delegates to the main path.  `hasLoaded` is the JS truthiness
of `key && LoadCache.has(key)` (line 69): an empty key never counts as
loaded. -/
def loadScript (p : ScriptProps) (pathname : String) (now : Nat)
    (st : LoaderState) : ScriptResult × LoaderState :=
  let key := scriptKey p
  let pathChanged := pathChangedOf (KV.get? st.prevPathCache key) pathname
  let reloadOnNavigation := pathChanged && p.reload
  let hasLoaded := (key != "") && st.loadCache.contains key
  let st := { st with prevPathCache := KV.set st.prevPathCache key pathname }
  if hasLoaded && !reloadOnNavigation then
    (.resolved true "already loaded", st)
  else
    let st := if hasLoaded then purgeForReload key p.target st else st
    loadScriptMain p key now st

/-- One `loadScript` call together with the browser inputs at call time. -/
structure CallInput where
  props : ScriptProps
  pathname : String
  now : Nat
deriving DecidableEq, Repr

/-- Run a sequence of `loadScript` calls, collecting the returned results. -/
def runCalls (st : LoaderState) : List CallInput → LoaderState × List ScriptResult
  | [] => (st, [])
  | c :: rest =>
      let r := loadScript c.props c.pathname c.now st
      let rs := runCalls r.2 rest
      (rs.1, r.1 :: rs.2)

/-! ### The load/error handlers of the fresh load promise (lines 170-199) -/

/-- A browser event delivered to the script element (the argument of the
`onload`/`onerror` handlers). -/
inductive BrowserEvent where
  | load (ev : String)
  | error (ev : String)
deriving DecidableEq, Repr

/-- An invocation of one of the caller-supplied callbacks. -/
inductive CbCall where
  | onLoad (ev : String)
  | onReady (ev : String)
  | onError (status : Bool) (ev : String)
deriving DecidableEq, Repr

/-- A settlement of the load promise: the `{status, event}` object it
resolves with or rejects with. -/
inductive PromiseOutcome where
  | resolvedS (status : Bool) (ev : String)
  | rejectedS (status : Bool) (ev : String)
deriving DecidableEq, Repr

/-- The caller-supplied callbacks the handler body runs for one event:
lines 172-179 call `onLoad` then `onReady` (each only when the caller
supplied it) on a `load` event; the `onerror` body (lines 187-189) runs no
caller callback itself (`onError` is invoked by the `.catch` stage). -/
def eventCbs (p : ScriptProps) : BrowserEvent → List CbCall
  | .load ev =>
      (if p.onLoad then [.onLoad ev] else []) ++
      (if p.onReady then [.onReady ev] else [])
  | .error _ => []

/-- The settlement one event requests: `resolve({status: true, event})` on
load (line 184), `reject({status: false, event})` on error (line 188). -/
def eventOutcome : BrowserEvent → PromiseOutcome
  | .load ev => .resolvedS true ev
  | .error ev => .rejectedS false ev

/-- The inner `new Promise` of lines 170-189 under a sequence of delivered
browser events: every delivered event runs its handler body (so its
callbacks accumulate), but only the first `resolve`/`reject` call settles
the promise — later ones are no-ops, which is the single-settlement
semantics of a JS promise. -/
def runEvents (p : ScriptProps) (events : List BrowserEvent) :
    List CbCall × Option PromiseOutcome :=
  events.foldl
    (fun acc e =>
      (acc.1 ++ eventCbs p e,
       match acc.2 with
       | none => some (eventOutcome e)
       | some x => some x))
    ([], none)

/-- Lines 190-199: the `.catch` stage of `loadPromise`.  When the promise
settles rejected, the caller's `onError` is invoked with the rejection value
(the default `onError` is a no-op, so only a caller-supplied one is
recorded) and the rejection is passed through unchanged. -/
def scriptLoadOutcome (p : ScriptProps) (events : List BrowserEvent) :
    List CbCall × Option PromiseOutcome :=
  let r := runEvents p events
  match r.2 with
  | some (.rejectedS b ev) =>
      (r.1 ++ (if p.onError then [.onError b ev] else []), r.2)
  | _ => r

/-! ### Replay of the frame-callback schedule, per key (for the liveness
invariant) -/

/-- The ScriptKey an elements table records for element `e`. -/
def elemKeyAt (elems : List (String × ScriptElement)) (e : Nat) : Option String :=
  (elems[e]?).map (fun kv => kv.1)

/-- The scheduled operations concerning elements created for key `k`. -/
def opsInFor (elems : List (String × ScriptElement)) (k : String)
    (l : List FrameOp) : List FrameOp :=
  l.filter (fun op => elemKeyAt elems op.elemId == some k)

/-- Replay one frame operation against the number of live elements for a
key: valid only while the count stays in 0/1 (append onto empty, remove of
the one live element). -/
def stepLive (acc : Option Nat) (op : FrameOp) : Option Nat :=
  match acc, op with
  | some 0, .append _ _ => some 1
  | some 1, .remove _ _ => some 0
  | _, _ => none

/-- Replay a whole operation list from an empty document. -/
def replay (l : List FrameOp) : Option Nat :=
  l.foldl stepLive (some 0)

/-- Number of scheduled appends in an operation list. -/
def countAppends (l : List FrameOp) : Nat :=
  (l.filter (fun op => op.isAppend)).length

/-- Number of scheduled removals in an operation list. -/
def countRemoves (l : List FrameOp) : Nat :=
  (l.filter (fun op => !op.isAppend)).length

/-! ### The per-key liveness invariant -/

/-- Every scheduled frame callback refers to an element that exists. -/
def SchedBounded (st : LoaderState) : Prop :=
  ∀ op ∈ st.schedule, op.elemId < st.elems.length

/-- Every `ScriptCache` entry holds a script element created for its own
key. -/
def CacheCoherent (st : LoaderState) : Prop :=
  ∀ k sc, KV.get? st.scriptCache k = some sc →
    ∃ e, sc.script = some e ∧ e < st.elems.length ∧
      elemKeyAt st.elems e = some k

/-- Replaying the schedule restricted to key `k` is valid and ends with one
live element exactly when the key has a `ScriptCache` entry. -/
def KeyLive (st : LoaderState) (k : String) : Prop :=
  replay (opsInFor st.elems k st.schedule) =
    some (if (KV.get? st.scriptCache k).isSome then 1 else 0)

/-- The liveness invariant for key `k`. -/
def LoaderInv (k : String) (st : LoaderState) : Prop :=
  SchedBounded st ∧ CacheCoherent st ∧ KeyLive st k

/-! ### Concrete inputs for the counterexamples and witnesses -/

def emptyProps : ScriptProps := {}

def propsAS : ScriptProps := { id := some "a", src := some "s" }

def propsASreload : ScriptProps :=
  { id := some "a", src := some "s", reload := true }

def propsNoModule : ScriptProps :=
  { id := some "a", src := some "/x", extra := [("noModule", some "nm")] }

def propsInlineAsync : ScriptProps :=
  { id := some "i", extra := [("async", some "1")] }

def propsWorker : ScriptProps :=
  { id := some "w", src := some "s", load := some "inWorker" }

def propsCallbacks : ScriptProps :=
  { id := some "c", src := some "s", onLoad := true, onReady := true,
    onError := true }

def propsXY : ScriptProps := { id := some "x", src := some "y" }

def propsKeyXY : ScriptProps := { id := some "xy" }

def propsCD : ScriptProps :=
  { id := some "c", src := some "d", extra := [("async", some "t")] }

def propsClassName : ScriptProps :=
  { id := some "a", src := some "s", extra := [("className", some "c")] }

def propsK : ScriptProps := { id := some "k" }

/-- A state holding an InstanceRegistry entry without a pending promise (the
defensive case of lines 107-112), with the key also marked loaded. -/
def stStrayLoaded : LoaderState :=
  { loadCache := ["k"],
    scriptCache := [("k", { promise := none, script := some 0 })],
    elems := [("k", {})] }

/-- The same stray entry, with the key absent from LoadCache. -/
def stStrayFresh : LoaderState :=
  { scriptCache := [("k", { promise := none, script := some 0 })],
    elems := [("k", {})] }

/-- The state after one loaded `src` call, used to witness the reload
purge. -/
def st4 : LoaderState := (loadScript propsAS "/p1" 0 initState).2

/-! ### Association-list and set lemmas -/

theorem KV.get?_set_self (l : List (String × α)) (k : String) (v : α) :
    KV.get? (KV.set l k v) k = some v := by
  induction l with
  | nil => simp [KV.get?, KV.set]
  | cons a t ih =>
    by_cases h : a.1 = k
    · simp [KV.get?, KV.set, h]
    · simp [KV.get?, KV.set, h, ih]

theorem KV.get?_set_ne (l : List (String × α)) (k k' : String) (v : α) (h : k' ≠ k) :
    KV.get? (KV.set l k v) k' = KV.get? l k' := by
  induction l with
  | nil => simp [KV.get?, KV.set, Ne.symm h]
  | cons a t ih =>
    by_cases ha : a.1 = k
    · simp [KV.get?, KV.set, ha, Ne.symm h]
    · by_cases ha' : a.1 = k'
      · simp [KV.get?, KV.set, ha, ha', h, Ne.symm h]
      · simp [KV.get?, KV.set, ha, ha', ih]

theorem KV.get?_del_self (l : List (String × α)) (k : String) :
    KV.get? (KV.del l k) k = none := by
  induction l with
  | nil => simp [KV.del, KV.get?]
  | cons a t ih =>
    by_cases h : a.1 = k
    · simp [KV.del, h, ih]
    · simp [KV.get?, KV.del, h, ih]

theorem KV.get?_del_ne (l : List (String × α)) (k k' : String) (h : k' ≠ k) :
    KV.get? (KV.del l k) k' = KV.get? l k' := by
  induction l with
  | nil => simp [KV.del]
  | cons a t ih =>
    by_cases ha : a.1 = k
    · have ha' : ¬(a.1 = k') := fun hh => h (hh ▸ ha)
      simp [KV.get?, KV.del, ha, ha', ih, h, Ne.symm h]
    · by_cases ha' : a.1 = k'
      · simp [KV.get?, KV.del, ha, ha', h, Ne.symm h]
      · simp [KV.get?, KV.del, ha, ha', ih]

theorem contains_addKey_self (l : List String) (k : String) :
    (addKey l k).contains k = true := by
  by_cases h : k ∈ l
  · simp [addKey, h]
  · simp [addKey, h]

theorem contains_addKey_ne (l : List String) (k k' : String) (h : k' ≠ k) :
    (addKey l k).contains k' = l.contains k' := by
  by_cases hc : k ∈ l
  · simp [addKey, hc]
  · simp [addKey, hc, h]

theorem contains_delKey_self (l : List String) (k : String) :
    (delKey l k).contains k = false := by
  simp [delKey]

theorem contains_delKey_ne (l : List String) (k k' : String) (h : k' ≠ k) :
    (delKey l k).contains k' = l.contains k' := by
  by_cases hc : k' ∈ l
  · simp [delKey, hc, h]
  · simp [delKey, hc, h]

/-! ### Unfolding lemmas for the branches of `loadScript` -/

theorem createScript_src (p : ScriptProps) (key : String) (st : LoaderState)
    (htr : truthy? p.src = true) :
    createScript p key st =
      (.pending st.elems.length,
       { st with
         loadCache := addKey st.loadCache key,
         scriptCache := KV.set st.scriptCache key
           ⟨some st.elems.length, some st.elems.length⟩,
         schedule := st.schedule ++ [.append p.target st.elems.length],
         elems := st.elems ++ [(key, buildElement p st.ignoreProps)] }) := by
  simp [createScript, htr]

theorem createScript_inline (p : ScriptProps) (key : String) (st : LoaderState)
    (htr : truthy? p.src = false) :
    createScript p key st =
      (.resolved true "inline script",
       { st with
         loadCache := addKey st.loadCache key,
         ignoreProps := st.ignoreProps ++ ["async", "defer"],
         schedule := st.schedule ++ [.append p.target st.elems.length],
         elems := st.elems ++
           [(key, buildElement p (st.ignoreProps ++ ["async", "defer"]))] }) := by
  simp [createScript, htr]

theorem loadScriptMain_fresh (p : ScriptProps) (key : String) (now : Nat)
    (st : LoaderState) (hnc : KV.get? st.scriptCache key = none) :
    loadScriptMain p key now st =
      createScript p key
        { st with startTimeCache :=
            if (KV.get? st.startTimeCache key).isSome then st.startTimeCache
            else KV.set st.startTimeCache key now } := by
  by_cases hs : (KV.get? st.startTimeCache key).isSome
  · simp [loadScriptMain, hs, hnc]
  · simp [loadScriptMain, hs, hnc]

theorem loadScriptMain_cached (p : ScriptProps) (key : String) (now : Nat)
    (st : LoaderState) (sc : ScriptCacheProps)
    (hc : KV.get? st.scriptCache key = some sc) :
    loadScriptMain p key now st =
      ((match sc.promise with
        | some pid => ScriptResult.pending pid
        | none => ScriptResult.resolved false "Script load promise not found"),
       { st with
         startTimeCache :=
           if (KV.get? st.startTimeCache key).isSome then st.startTimeCache
           else KV.set st.startTimeCache key now,
         loadCache := addKey st.loadCache key }) := by
  by_cases hs : (KV.get? st.startTimeCache key).isSome
  · cases hp : sc.promise <;> simp [loadScriptMain, hs, hc, hp]
  · cases hp : sc.promise <;> simp [loadScriptMain, hs, hc, hp]

theorem loadScript_notLoaded (p : ScriptProps) (pathname : String) (now : Nat)
    (st : LoaderState)
    (hnl : ((scriptKey p != "") && st.loadCache.contains (scriptKey p)) = false) :
    loadScript p pathname now st =
      loadScriptMain p (scriptKey p) now
        { st with prevPathCache := KV.set st.prevPathCache (scriptKey p) pathname } := by
  have hnl' : ¬(¬scriptKey p = "" ∧ scriptKey p ∈ st.loadCache) := by
    simpa using hnl
  simp [loadScript, hnl']

theorem loadScript_short (p : ScriptProps) (pathname : String) (now : Nat)
    (st : LoaderState)
    (hkey : scriptKey p ≠ "")
    (hl : st.loadCache.contains (scriptKey p) = true)
    (hr : (pathChangedOf (KV.get? st.prevPathCache (scriptKey p)) pathname
            && p.reload) = false) :
    loadScript p pathname now st =
      (.resolved true "already loaded",
       { st with prevPathCache := KV.set st.prevPathCache (scriptKey p) pathname }) := by
  have hmem : scriptKey p ∈ st.loadCache := by simpa using hl
  have hor : pathChangedOf (KV.get? st.prevPathCache (scriptKey p)) pathname = false
      ∨ p.reload = false := by
    rcases Bool.and_eq_false_iff.mp hr with h1 | h1
    · exact Or.inl h1
    · exact Or.inr h1
  rcases hor with h1 | h1 <;> simp [loadScript, hkey, hmem, h1]

theorem loadScript_reload (p : ScriptProps) (pathname : String) (now : Nat)
    (st : LoaderState)
    (hkey : scriptKey p ≠ "")
    (hl : st.loadCache.contains (scriptKey p) = true)
    (hr : (pathChangedOf (KV.get? st.prevPathCache (scriptKey p)) pathname
            && p.reload) = true) :
    loadScript p pathname now st =
      loadScriptMain p (scriptKey p) now
        (purgeForReload (scriptKey p) p.target
          { st with prevPathCache := KV.set st.prevPathCache (scriptKey p) pathname }) := by
  have hmem : scriptKey p ∈ st.loadCache := by simpa using hl
  have hpc : pathChangedOf (KV.get? st.prevPathCache (scriptKey p)) pathname = true :=
    (Bool.and_eq_true_iff.mp hr).1
  have hrel : p.reload = true := (Bool.and_eq_true_iff.mp hr).2
  simp [loadScript, hkey, hmem, hpc, hrel]

theorem purgeForReload_hit (key target : String) (st : LoaderState)
    (sc : ScriptCacheProps) (e : Nat)
    (hc : KV.get? st.scriptCache key = some sc) (hs : sc.script = some e) :
    purgeForReload key target st =
      { st with
        loadCache := delKey st.loadCache key,
        scriptCache := KV.del st.scriptCache key,
        startTimeCache := KV.del st.startTimeCache key,
        schedule := st.schedule ++ [.remove target e] } := by
  simp [purgeForReload, hc, hs]

/-! ### Element attribute lemmas -/

theorem getAttribute_setAttribute_self (el : ScriptElement) (n v : String) :
    (el.setAttribute n v).getAttribute n = some v := by
  simp [ScriptElement.setAttribute, ScriptElement.getAttribute]

theorem getAttribute_setAttribute_ne (el : ScriptElement) (n n' v : String)
    (h : n' ≠ n) :
    (el.setAttribute n v).getAttribute n' = el.getAttribute n' := by
  simp [ScriptElement.setAttribute, ScriptElement.getAttribute, Ne.symm h]

theorem getAttribute_of_attrSets_nil (el : ScriptElement) (h : el.attrSets = [])
    (n : String) : el.getAttribute n = none := by
  simp [ScriptElement.getAttribute, h]

theorem bodyElement_attrSets (p : ScriptProps) : (bodyElement p).attrSets = [] := by
  by_cases h : p.dangerouslySetInnerHTML.isSome
  · simp [bodyElement, h]
  · cases hc : p.children with
    | nothing => simp [bodyElement, h, hc]
    | str s =>
        by_cases hs : s = ""
        · simp [bodyElement, h, hc, hs]
        · simp [bodyElement, h, hc, hs]
    | arr l => simp [bodyElement, h, hc]

/-- The translated attribute name is either the lower-cased prop name or one
of the five values of `DOMAttributeNames`. -/
theorem attrNameOf_cases (k : String) :
    attrNameOf k = toLowerJS k ∨
      attrNameOf k ∈ ["accept-charset", "class", "for", "http-equiv", "noModule"] := by
  by_cases h1 : k = "acceptCharset"
  · right; simp [attrNameOf, KV.get?, DOMAttributeNames, h1]
  by_cases h2 : k = "className"
  · right; simp [attrNameOf, KV.get?, DOMAttributeNames, h2]
  by_cases h3 : k = "htmlFor"
  · right; simp [attrNameOf, KV.get?, DOMAttributeNames, h3]
  by_cases h4 : k = "httpEquiv"
  · right; simp [attrNameOf, KV.get?, DOMAttributeNames, h4]
  by_cases h5 : k = "noModule"
  · right; simp [attrNameOf, KV.get?, DOMAttributeNames, h5]
  left
  have g1 : ¬("acceptCharset" = k) := fun hh => h1 hh.symm
  have g2 : ¬("className" = k) := fun hh => h2 hh.symm
  have g3 : ¬("htmlFor" = k) := fun hh => h3 hh.symm
  have g4 : ¬("httpEquiv" = k) := fun hh => h4 hh.symm
  have g5 : ¬("noModule" = k) := fun hh => h5 hh.symm
  simp [attrNameOf, KV.get?, DOMAttributeNames, g1, g2, g3, g4, g5]

theorem spreadProps_cons (ign : List String) (kv : String × Option String)
    (t : List (String × Option String)) (sc : ScriptElement) :
    spreadProps ign (kv :: t) sc =
      spreadProps ign t
        (match kv.2 with
         | none => sc
         | some v =>
             if ign.contains kv.1 then sc
             else sc.setAttribute (attrNameOf kv.1) v) := by
  simp [spreadProps]

theorem spreadProps_getAttr_none (ign : List String)
    (entries : List (String × Option String)) (sc : ScriptElement) (a : String)
    (h : ∀ kv ∈ entries, ∀ v, kv.2 = some v → ign.contains kv.1 = false →
          attrNameOf kv.1 ≠ a)
    (h0 : sc.getAttribute a = none) :
    (spreadProps ign entries sc).getAttribute a = none := by
  induction entries generalizing sc with
  | nil => simpa [spreadProps] using h0
  | cons kv t ih =>
    rw [spreadProps_cons]
    have htail : ∀ x ∈ t, ∀ v, x.2 = some v → ign.contains x.1 = false →
        attrNameOf x.1 ≠ a :=
      fun x hx => h x (List.mem_cons_of_mem kv hx)
    cases hv : kv.2 with
    | none => exact ih sc htail h0
    | some v =>
      by_cases hig : kv.1 ∈ ign
      · simpa [hig] using ih sc htail h0
      · have higc : ign.contains kv.1 = false := by simpa using hig
        have hne : attrNameOf kv.1 ≠ a :=
          h kv (List.mem_cons_self kv t) v hv higc
        have h0' : (sc.setAttribute (attrNameOf kv.1) v).getAttribute a = none := by
          rw [getAttribute_setAttribute_ne _ _ _ _ (Ne.symm hne)]
          exact h0
        simpa [hig] using ih _ htail h0'

theorem spreadProps_attrSets_mono (ign : List String)
    (entries : List (String × Option String)) (sc : ScriptElement)
    (x : String × String) (hx : x ∈ sc.attrSets) :
    x ∈ (spreadProps ign entries sc).attrSets := by
  induction entries generalizing sc with
  | nil => simpa [spreadProps] using hx
  | cons kv t ih =>
    rw [spreadProps_cons]
    cases hv : kv.2 with
    | none => exact ih sc hx
    | some v =>
      by_cases hig : kv.1 ∈ ign
      · simpa [hig] using ih sc hx
      · have hx' : x ∈ (sc.setAttribute (attrNameOf kv.1) v).attrSets := by
          simp only [ScriptElement.setAttribute, List.mem_append]
          exact Or.inl hx
        simpa [hig] using ih _ hx'

theorem spreadProps_attr_mem (ign : List String)
    (entries : List (String × Option String)) (sc : ScriptElement)
    (name v : String) (hmem : (name, some v) ∈ entries)
    (hig : ign.contains name = false) :
    (attrNameOf name, v) ∈ (spreadProps ign entries sc).attrSets := by
  induction entries generalizing sc with
  | nil => cases hmem
  | cons kv t ih =>
    rw [spreadProps_cons]
    rcases List.mem_cons.mp hmem with heq | htl
    · subst heq
      have hig' : name ∉ ign := by simpa using hig
      have hset : ((attrNameOf name, v)) ∈ (sc.setAttribute (attrNameOf name) v).attrSets := by
        simp [ScriptElement.setAttribute]
      simpa [hig'] using spreadProps_attrSets_mono ign t _ _ hset
    · cases hv : kv.2 with
      | none => exact ih _ htl
      | some w =>
        by_cases hig2 : kv.1 ∈ ign
        · simpa [hig2] using ih _ htl
        · simpa [hig2] using ih _ htl

/-! ### Lemmas about the built element -/

theorem buildElement_dataLoad_src (p : ScriptProps) (ign : List String)
    (htr : truthy? p.src = true) :
    (buildElement p ign).getAttribute "data-load" =
      some (p.load.getD "afterHydration") := by
  simp [buildElement, htr, getAttribute_setAttribute_self]

theorem buildElement_dataLoad_inline (p : ScriptProps) (ign : List String)
    (htr : truthy? p.src = false) :
    (buildElement p ign).getAttribute "data-load" = some "inline" := by
  simp [buildElement, htr, getAttribute_setAttribute_self]

theorem buildElement_type_inWorker (p : ScriptProps) (ign : List String)
    (hl : (p.load.getD "afterHydration") = "inWorker") :
    (buildElement p ign).getAttribute "type" = some "text/partytown" := by
  by_cases htr : truthy? p.src = true
  · simp [buildElement, htr, hl, getAttribute_setAttribute_self,
      getAttribute_setAttribute_ne _ _ _ _ (by decide : ("type" : String) ≠ "data-load")]
  · simp [buildElement, htr, hl, getAttribute_setAttribute_self,
      getAttribute_setAttribute_ne _ _ _ _ (by decide : ("type" : String) ≠ "data-load")]

theorem runEvents_stays_settled (p : ScriptProps) (events : List BrowserEvent)
    (cbs : List CbCall) (o : PromiseOutcome) :
    (events.foldl
      (fun acc e =>
        (acc.1 ++ eventCbs p e,
         match acc.2 with
         | none => some (eventOutcome e)
         | some x => some x))
      (cbs, some o)).2 = some o := by
  induction events generalizing cbs with
  | nil => rfl
  | cons e t ih => simpa using ih (cbs ++ eventCbs p e)

/-- The settlement of the load promise is fixed by the first delivered
event, whatever is delivered afterwards. -/
theorem runEvents_first_event (p : ScriptProps) (e : BrowserEvent)
    (rest : List BrowserEvent) :
    (runEvents p (e :: rest)).2 = some (eventOutcome e) := by
  simpa [runEvents] using runEvents_stays_settled p rest (eventCbs p e) (eventOutcome e)

theorem stepLive_none (op : FrameOp) : stepLive none op = none := by
  cases op <;> rfl

theorem foldl_stepLive_none (l : List FrameOp) : l.foldl stepLive none = none := by
  induction l with
  | nil => rfl
  | cons op t ih => simpa [stepLive_none] using ih

theorem replay_append_single (l : List FrameOp) (op : FrameOp) :
    replay (l ++ [op]) = stepLive (replay l) op := by
  simp [replay, List.foldl_append]

theorem replay_left_some (l₁ l₂ : List FrameOp) (m : Nat)
    (h : replay (l₁ ++ l₂) = some m) : ∃ m', replay l₁ = some m' := by
  cases hl : replay l₁ with
  | some m' => exact ⟨m', rfl⟩
  | none =>
    have : replay (l₁ ++ l₂) = none := by
      have hfa := List.foldl_append stepLive (some 0) l₁ l₂
      rw [replay, hfa, show l₁.foldl stepLive (some 0) = none from hl,
        foldl_stepLive_none]
    rw [this] at h
    cases h

theorem foldl_stepLive_counts (l : List FrameOp) :
    ∀ a m : Nat, a ≤ 1 → l.foldl stepLive (some a) = some m →
      countAppends l + a = countRemoves l + m ∧ m ≤ 1 := by
  induction l with
  | nil =>
    intro a m ha h
    have : a = m := by simpa [replay] using h
    subst this
    simp [countAppends, countRemoves, ha]
  | cons op t ih =>
    intro a m ha h
    match hop : op, ha' : a with
    | .append tg e, 0 =>
      have h' : t.foldl stepLive (some 1) = some m := by
        simpa [stepLive] using h
      have := ih 1 m (by omega) h'
      constructor
      · have e1 : (FrameOp.append tg e).isAppend = true := rfl
        simp only [countAppends, countRemoves] at this
        simp only [countAppends, countRemoves, List.filter_cons, e1, if_pos,
          Bool.not_true, if_neg, List.length_cons, Bool.false_eq_true,
          not_false_iff, ite_true, ite_false]
        omega
      · exact this.2
    | .append tg e, Nat.succ n =>
      exfalso
      have hn : n = 0 := by omega
      subst hn
      simp [List.foldl_cons, stepLive, foldl_stepLive_none] at h
    | .remove tg e, 0 =>
      exfalso
      simp [List.foldl_cons, stepLive, foldl_stepLive_none] at h
    | .remove tg e, Nat.succ n =>
      have hn : n = 0 := by omega
      subst hn
      have h' : t.foldl stepLive (some 0) = some m := by
        simpa [stepLive] using h
      have := ih 0 m (by omega) h'
      constructor
      · have e1 : (FrameOp.remove tg e).isAppend = false := rfl
        simp only [countAppends, countRemoves] at this
        simp only [countAppends, countRemoves, List.filter_cons, e1,
          Bool.not_false, List.length_cons, Bool.false_eq_true, not_false_iff,
          ite_true, ite_false]
        omega
      · exact this.2

/-- In any valid replay, every prefix has at most one more append than
removals. -/
theorem replay_prefix_bound (l₁ l₂ : List FrameOp) (m : Nat)
    (h : replay (l₁ ++ l₂) = some m) :
    countAppends l₁ ≤ countRemoves l₁ + 1 := by
  obtain ⟨m', hm'⟩ := replay_left_some l₁ l₂ m h
  have := foldl_stepLive_counts l₁ 0 m' (by omega) (by simpa [replay] using hm')
  omega

theorem getElem?_append_lt (l : List α) (x : α) (e : Nat) (he : e < l.length) :
    (l ++ [x])[e]? = l[e]? := by
  simp [List.getElem?_append, he]

theorem elemKeyAt_append_lt (elems : List (String × ScriptElement))
    (x : String × ScriptElement) (e : Nat) (he : e < elems.length) :
    elemKeyAt (elems ++ [x]) e = elemKeyAt elems e := by
  simp [elemKeyAt, getElem?_append_lt elems x e he]

theorem elemKeyAt_append_last (elems : List (String × ScriptElement))
    (x : String × ScriptElement) :
    elemKeyAt (elems ++ [x]) elems.length = some x.1 := by
  simp [elemKeyAt]

theorem LoaderInv_congr (k : String) (st st' : LoaderState)
    (h1 : st'.scriptCache = st.scriptCache) (h2 : st'.schedule = st.schedule)
    (h3 : st'.elems = st.elems) (h : LoaderInv k st) : LoaderInv k st' := by
  obtain ⟨hb, hc, hl⟩ := h
  refine ⟨?_, ?_, ?_⟩
  · intro op hop
    rw [h2] at hop
    rw [h3]
    exact hb op hop
  · intro k' sc hsc
    rw [h1] at hsc
    obtain ⟨e, hs, hlt, hk⟩ := hc k' sc hsc
    exact ⟨e, hs, by rw [h3]; exact hlt, by rw [h3]; exact hk⟩
  · unfold KeyLive at hl ⊢
    rw [h1, h2, h3]
    exact hl

theorem LoaderInv_initState (k : String) : LoaderInv k initState := by
  refine ⟨?_, ?_, ?_⟩
  · intro op hop
    cases hop
  · intro k' sc hsc
    cases hsc
  · simp [KeyLive, replay, opsInFor, initState, KV.get?]

theorem opsInFor_extend (st : LoaderState) (x : String × ScriptElement)
    (k : String) (hb : SchedBounded st) :
    opsInFor (st.elems ++ [x]) k st.schedule = opsInFor st.elems k st.schedule := by
  unfold opsInFor
  refine List.filter_congr ?_
  intro op hop
  rw [elemKeyAt_append_lt st.elems x op.elemId (hb op hop)]

theorem LoaderInv_create (k key : String) (p : ScriptProps) (st : LoaderState)
    (hinv : LoaderInv k st) (hnc : KV.get? st.scriptCache key = none)
    (hsrc : key = k → truthy? p.src = true) :
    LoaderInv k (createScript p key st).2 := by
  obtain ⟨hb, hc, hl⟩ := hinv
  by_cases htr : truthy? p.src = true
  · rw [createScript_src p key st htr]
    refine ⟨?_, ?_, ?_⟩
    · intro op hop
      simp only [List.mem_append, List.mem_singleton] at hop
      simp only [List.length_append, List.length_singleton]
      rcases hop with h | h
      · exact Nat.lt_succ_of_lt (hb op h)
      · subst h
        simp [FrameOp.elemId]
    · intro k' sc hsc
      simp only at hsc
      by_cases hkk : k' = key
      · subst hkk
        rw [KV.get?_set_self] at hsc
        injection hsc with hv
        cases hv
        refine ⟨st.elems.length, rfl, by simp, ?_⟩
        simpa using elemKeyAt_append_last st.elems
          (k', buildElement p st.ignoreProps)
      · rw [KV.get?_set_ne _ _ _ _ hkk] at hsc
        obtain ⟨e, hs, hlt, hk⟩ := hc k' sc hsc
        refine ⟨e, hs, ?_, ?_⟩
        · simp only [List.length_append, List.length_singleton]
          exact Nat.lt_succ_of_lt hlt
        · rw [elemKeyAt_append_lt st.elems _ e hlt]
          exact hk
    · unfold KeyLive at hl ⊢
      simp only [opsInFor, List.filter_append]
      have hbase :
          List.filter
            (fun op =>
              elemKeyAt (st.elems ++ [(key, buildElement p st.ignoreProps)])
                op.elemId == some k) st.schedule
            = opsInFor st.elems k st.schedule := by
        refine List.filter_congr ?_
        intro op hop
        rw [elemKeyAt_append_lt st.elems _ op.elemId (hb op hop)]
      rw [hbase]
      by_cases hkk : key = k
      · subst hkk
        have hnc' : KV.get? st.scriptCache key = none := hnc
        have hfil :
            List.filter
              (fun op =>
                elemKeyAt (st.elems ++ [(key, buildElement p st.ignoreProps)])
                  op.elemId == some key)
              [FrameOp.append p.target st.elems.length]
              = [FrameOp.append p.target st.elems.length] := by
          simp [FrameOp.elemId, elemKeyAt_append_last]
        rw [hfil, replay_append_single]
        rw [hnc'] at hl
        simp only [Option.isSome_none, Bool.false_eq_true, if_false] at hl
        rw [hl]
        simp [stepLive, KV.get?_set_self]
      · have hfil :
            List.filter
              (fun op =>
                elemKeyAt (st.elems ++ [(key, buildElement p st.ignoreProps)])
                  op.elemId == some k)
              [FrameOp.append p.target st.elems.length]
              = [] := by
          simp [FrameOp.elemId, elemKeyAt_append_last, hkk]
        rw [hfil, List.append_nil]
        rw [KV.get?_set_ne _ _ _ _ (fun hh => hkk hh.symm)]
        exact hl
  · have htr' : truthy? p.src = false := by simpa using htr
    rw [createScript_inline p key st htr']
    have hkk : key ≠ k := fun hh => htr (hsrc hh)
    refine ⟨?_, ?_, ?_⟩
    · intro op hop
      simp only [List.mem_append, List.mem_singleton] at hop
      simp only [List.length_append, List.length_singleton]
      rcases hop with h | h
      · exact Nat.lt_succ_of_lt (hb op h)
      · subst h
        simp [FrameOp.elemId]
    · intro k' sc hsc
      simp only at hsc
      obtain ⟨e, hs, hlt, hk⟩ := hc k' sc hsc
      refine ⟨e, hs, ?_, ?_⟩
      · simp only [List.length_append, List.length_singleton]
        exact Nat.lt_succ_of_lt hlt
      · rw [elemKeyAt_append_lt st.elems _ e hlt]
        exact hk
    · unfold KeyLive at hl ⊢
      simp only [opsInFor, List.filter_append]
      have hbase :
          List.filter
            (fun op =>
              elemKeyAt
                (st.elems ++ [(key, buildElement p (st.ignoreProps ++ ["async", "defer"]))])
                op.elemId == some k) st.schedule
            = opsInFor st.elems k st.schedule := by
        refine List.filter_congr ?_
        intro op hop
        rw [elemKeyAt_append_lt st.elems _ op.elemId (hb op hop)]
      have hfil :
          List.filter
            (fun op =>
              elemKeyAt
                (st.elems ++ [(key, buildElement p (st.ignoreProps ++ ["async", "defer"]))])
                op.elemId == some k)
            [FrameOp.append p.target st.elems.length]
            = [] := by
        simp [FrameOp.elemId, elemKeyAt_append_last, hkk]
      rw [hbase, hfil, List.append_nil]
      exact hl

theorem LoaderInv_purge (k key tgt : String) (st : LoaderState)
    (hinv : LoaderInv k st) : LoaderInv k (purgeForReload key tgt st) := by
  obtain ⟨hb, hc, hl⟩ := hinv
  cases hcc : KV.get? st.scriptCache key with
  | none => simpa [purgeForReload, hcc] using And.intro hb (And.intro hc hl)
  | some sc =>
    obtain ⟨e, hs, hlt, hk⟩ := hc key sc hcc
    rw [purgeForReload_hit key tgt st sc e hcc hs]
    refine ⟨?_, ?_, ?_⟩
    · intro op hop
      simp only [List.mem_append, List.mem_singleton] at hop
      rcases hop with h | h
      · exact hb op h
      · subst h
        simpa [FrameOp.elemId] using hlt
    · intro k' sc' hsc'
      simp only at hsc'
      by_cases hkk : k' = key
      · subst hkk
        rw [KV.get?_del_self] at hsc'
        cases hsc'
      · rw [KV.get?_del_ne _ _ _ hkk] at hsc'
        exact hc k' sc' hsc'
    · unfold KeyLive at hl ⊢
      simp only [opsInFor, List.filter_append]
      by_cases hkk : key = k
      · subst hkk
        have hfil :
            List.filter (fun op => elemKeyAt st.elems op.elemId == some key)
              [FrameOp.remove tgt e] = [FrameOp.remove tgt e] := by
          simp [FrameOp.elemId, hk]
        rw [hfil, replay_append_single]
        rw [hcc] at hl
        simp only [Option.isSome_some, if_true] at hl
        rw [show List.filter
            (fun op => elemKeyAt st.elems op.elemId == some key) st.schedule
            = opsInFor st.elems key st.schedule from rfl, hl]
        simp [stepLive, KV.get?_del_self]
      · have hfil :
            List.filter (fun op => elemKeyAt st.elems op.elemId == some k)
              [FrameOp.remove tgt e] = [] := by
          simp [FrameOp.elemId, hk, hkk]
        rw [hfil, List.append_nil]
        rw [KV.get?_del_ne _ _ _ (fun hh => hkk hh.symm)]
        exact hl

theorem purge_clears (key tgt : String) (st : LoaderState)
    (hc : CacheCoherent st) :
    KV.get? (purgeForReload key tgt st).scriptCache key = none := by
  cases hcc : KV.get? st.scriptCache key with
  | none =>
    rw [show purgeForReload key tgt st = st by simp [purgeForReload, hcc]]
    exact hcc
  | some sc =>
    obtain ⟨e, hs, _, _⟩ := hc key sc hcc
    rw [purgeForReload_hit key tgt st sc e hcc hs]
    simpa using KV.get?_del_self st.scriptCache key

/-- One `loadScript` call preserves the liveness invariant for key `k`,
provided a call whose key is `k` carries a source URL. -/
theorem LoaderInv_loadScript (k : String) (p : ScriptProps) (pathname : String)
    (now : Nat) (st : LoaderState)
    (hsrc : scriptKey p = k → truthy? p.src = true)
    (hinv : LoaderInv k st) :
    LoaderInv k (loadScript p pathname now st).2 := by
  by_cases hL : ((scriptKey p != "") && st.loadCache.contains (scriptKey p)) = true
  · have hkne : scriptKey p ≠ "" := by
      have := (Bool.and_eq_true_iff.mp hL).1
      simpa using this
    have hlc : st.loadCache.contains (scriptKey p) = true :=
      (Bool.and_eq_true_iff.mp hL).2
    by_cases hR : (pathChangedOf (KV.get? st.prevPathCache (scriptKey p)) pathname
        && p.reload) = true
    · rw [loadScript_reload p pathname now st hkne hlc hR]
      have hinv1 : LoaderInv k
          { st with prevPathCache := KV.set st.prevPathCache (scriptKey p) pathname } :=
        LoaderInv_congr k st _ rfl rfl rfl hinv
      have hinvP := LoaderInv_purge k (scriptKey p) p.target _ hinv1
      have hncP := purge_clears (scriptKey p) p.target _ hinv1.2.1
      rw [loadScriptMain_fresh p (scriptKey p) now _ hncP]
      have hinv2 : LoaderInv k _ := LoaderInv_congr k _ _ rfl rfl rfl hinvP
      exact LoaderInv_create k (scriptKey p) p _ hinv2 hncP hsrc
    · have hR' : (pathChangedOf (KV.get? st.prevPathCache (scriptKey p)) pathname
          && p.reload) = false := by simpa using hR
      rw [loadScript_short p pathname now st hkne hlc hR']
      exact LoaderInv_congr k st _ rfl rfl rfl hinv
  · have hnl : ((scriptKey p != "") && st.loadCache.contains (scriptKey p)) = false := by
      simpa using hL
    rw [loadScript_notLoaded p pathname now st hnl]
    set st1 := { st with
      prevPathCache := KV.set st.prevPathCache (scriptKey p) pathname } with hst1
    cases hcc : KV.get? st.scriptCache (scriptKey p) with
    | some sc =>
      have hcc1 : KV.get? st1.scriptCache (scriptKey p) = some sc := hcc
      rw [loadScriptMain_cached p (scriptKey p) now st1 sc hcc1]
      exact LoaderInv_congr k st _ rfl rfl rfl hinv
    | none =>
      have hcc1 : KV.get? st1.scriptCache (scriptKey p) = none := hcc
      rw [loadScriptMain_fresh p (scriptKey p) now st1 hcc1]
      exact LoaderInv_create k (scriptKey p) p _
        (LoaderInv_congr k st _ rfl rfl rfl hinv) hcc1 hsrc

/-- Running any sequence of calls preserves the invariant. -/
theorem LoaderInv_runCalls (k : String) (calls : List CallInput)
    (st : LoaderState) (hinv : LoaderInv k st)
    (hsrc : ∀ c ∈ calls, scriptKey c.props = k → truthy? c.props.src = true) :
    LoaderInv k (runCalls st calls).1 := by
  induction calls generalizing st with
  | nil => simpa [runCalls] using hinv
  | cons c t ih =>
    simp only [runCalls]
    exact ih _
      (LoaderInv_loadScript k c.props c.pathname c.now st
        (hsrc c (List.mem_cons_self c t)) hinv)
      (fun c' hc' => hsrc c' (List.mem_cons_of_mem c hc'))

/-! ### Further helper lemmas for the claims -/

theorem append_ne_empty_of_right (a b : String) (h : b ≠ "") : a ++ b ≠ "" := by
  intro hk
  apply h
  have hd : (a ++ b).data = ("" : String).data := congrArg String.data hk
  rw [String.data_append] at hd
  have hnil : b.data = [] := (List.append_eq_nil.mp (by simpa using hd)).2
  cases b with
  | mk d =>
    have hd0 : d = [] := by simpa using hnil
    rw [hd0]

theorem scriptKey_ne_of_src (p : ScriptProps) (h : truthy? p.src = true) :
    scriptKey p ≠ "" :=
  append_ne_empty_of_right _ _ (by simpa [truthy?] using h)

theorem setAttribute_mem (el : ScriptElement) (n v : String) (x : String × String)
    (hx : x ∈ el.attrSets) : x ∈ (el.setAttribute n v).attrSets := by
  simp only [ScriptElement.setAttribute, List.mem_append]
  exact Or.inl hx

theorem buildElement_attr_none (p : ScriptProps) (ign : List String) (a : String)
    (ha1 : a ≠ "type") (ha2 : a ≠ "data-load")
    (h : ∀ kv ∈ p.entries, ∀ v, kv.2 = some v → ign.contains kv.1 = false →
          attrNameOf kv.1 ≠ a) :
    (buildElement p ign).getAttribute a = none := by
  have hsp : (spreadProps ign p.entries (bodyElement p)).getAttribute a = none :=
    spreadProps_getAttr_none ign p.entries (bodyElement p) a h
      (getAttribute_of_attrSets_nil _ (bodyElement_attrSets p) a)
  have g1 : ∀ (el : ScriptElement) (v : String),
      (el.setAttribute "type" v).getAttribute a = el.getAttribute a :=
    fun el v => getAttribute_setAttribute_ne el "type" a v ha1
  have g2 : ∀ (el : ScriptElement) (v : String),
      (el.setAttribute "data-load" v).getAttribute a = el.getAttribute a :=
    fun el v => getAttribute_setAttribute_ne el "data-load" a v ha2
  by_cases htr : truthy? p.src = true
  · by_cases hw : ((p.load.getD "afterHydration") == "inWorker") = true
    · simp [buildElement, htr, hw, g1, g2, hsp]
    · simp [buildElement, htr, hw, g1, g2, hsp]
  · by_cases hw : ((p.load.getD "afterHydration") == "inWorker") = true
    · simp [buildElement, htr, hw, g1, g2, hsp]
    · simp [buildElement, htr, hw, g1, g2, hsp]

theorem buildElement_excludes (p : ScriptProps) (ign : List String) (a : String)
    (hmem : a ∈ ign) (ha : a = "async" ∨ a = "defer")
    (hwell : ∀ kv ∈ p.entries, toLowerJS kv.1 = a → kv.1 = a) :
    (buildElement p ign).getAttribute a = none := by
  have ha1 : a ≠ "type" := by
    rcases ha with h | h <;> subst h <;> decide
  have ha2 : a ≠ "data-load" := by
    rcases ha with h | h <;> subst h <;> decide
  refine buildElement_attr_none p ign a ha1 ha2 ?_
  intro kv hkv v hv hig heq
  rcases attrNameOf_cases kv.1 with hcase | hcase
  · have hk1 : kv.1 = a := hwell kv hkv (by rw [← hcase]; exact heq)
    have hc : ign.contains a = true := by simpa using hmem
    rw [hk1] at hig
    rw [hig] at hc
    cases hc
  · rw [heq] at hcase
    rcases ha with h | h <;> subst h <;> revert hcase <;> decide

theorem buildElement_attr_mem (p : ScriptProps) (ign : List String)
    (name v : String) (hmem : (name, some v) ∈ p.entries)
    (hig : ign.contains name = false) :
    (attrNameOf name, v) ∈ (buildElement p ign).attrSets := by
  have hsp := spreadProps_attr_mem ign p.entries (bodyElement p) name v hmem hig
  by_cases htr : truthy? p.src = true
  · by_cases hw : ((p.load.getD "afterHydration") == "inWorker") = true
    · simp only [buildElement, htr, hw, if_true]
      exact setAttribute_mem _ _ _ _ (setAttribute_mem _ _ _ _ hsp)
    · simp only [buildElement, htr, hw, if_true, Bool.false_eq_true, if_false]
      exact setAttribute_mem _ _ _ _ hsp
  · have htr' : truthy? p.src = false := by simpa using htr
    by_cases hw : ((p.load.getD "afterHydration") == "inWorker") = true
    · simp only [buildElement, htr', hw, if_true, Bool.false_eq_true, if_false]
      exact setAttribute_mem _ _ _ _ (setAttribute_mem _ _ _ _ hsp)
    · simp only [buildElement, htr', hw, Bool.false_eq_true, if_false]
      exact setAttribute_mem _ _ _ _ hsp

theorem opsInFor_append (elems : List (String × ScriptElement)) (k : String)
    (l₁ l₂ : List FrameOp) :
    opsInFor elems k (l₁ ++ l₂) = opsInFor elems k l₁ ++ opsInFor elems k l₂ := by
  simp [opsInFor]

theorem purgeForReload_ignoreProps (key tgt : String) (st : LoaderState) :
    (purgeForReload key tgt st).ignoreProps = st.ignoreProps := by
  cases hcc : KV.get? st.scriptCache key with
  | none => simp [purgeForReload, hcc]
  | some sc =>
    cases hs : sc.script with
    | none => simp [purgeForReload, hcc, hs]
    | some e => simp [purgeForReload, hcc, hs]

theorem ignoreProps_mono (p : ScriptProps) (pathname : String) (now : Nat)
    (st : LoaderState) (x : String) (hx : x ∈ st.ignoreProps) :
    x ∈ (loadScript p pathname now st).2.ignoreProps := by
  have hcr : ∀ (key : String) (st' : LoaderState), x ∈ st'.ignoreProps →
      x ∈ ((createScript p key st').2).ignoreProps := by
    intro key st' hx'
    by_cases htr : truthy? p.src = true
    · rw [createScript_src p key st' htr]
      exact hx'
    · rw [createScript_inline p key st' (by simpa using htr)]
      exact List.mem_append_left _ hx'
  have hm : ∀ (key : String) (st' : LoaderState), x ∈ st'.ignoreProps →
      x ∈ ((loadScriptMain p key now st').2).ignoreProps := by
    intro key st' hx'
    cases hcc : KV.get? st'.scriptCache key with
    | some sc =>
      rw [loadScriptMain_cached p key now st' sc hcc]
      exact hx'
    | none =>
      rw [loadScriptMain_fresh p key now st' hcc]
      exact hcr key _ hx'
  by_cases hL : ((scriptKey p != "") && st.loadCache.contains (scriptKey p)) = true
  · have hkne : scriptKey p ≠ "" := by
      have := (Bool.and_eq_true_iff.mp hL).1
      simpa using this
    have hlc : st.loadCache.contains (scriptKey p) = true :=
      (Bool.and_eq_true_iff.mp hL).2
    by_cases hR : (pathChangedOf (KV.get? st.prevPathCache (scriptKey p)) pathname
        && p.reload) = true
    · rw [loadScript_reload p pathname now st hkne hlc hR]
      apply hm
      rw [purgeForReload_ignoreProps]
      exact hx
    · have hR' : (pathChangedOf (KV.get? st.prevPathCache (scriptKey p)) pathname
          && p.reload) = false := by simpa using hR
      rw [loadScript_short p pathname now st hkne hlc hR']
      exact hx
  · have hnl : ((scriptKey p != "") && st.loadCache.contains (scriptKey p)) = false := by
      simpa using hL
    rw [loadScript_notLoaded p pathname now st hnl]
    exact hm _ _ hx

/-- The first call for a key on the pristine module state: the whole run of
`loadScript` written out. -/
theorem firstCall_init (p : ScriptProps) (path1 : String) (n1 : Nat) :
    loadScript p path1 n1 initState =
      ((if truthy? p.src then .pending 0 else .resolved true "inline script"),
       { startTimeCache := [(scriptKey p, n1)],
         prevPathCache := [(scriptKey p, path1)],
         loadCache := [scriptKey p],
         scriptCache :=
           if truthy? p.src then [(scriptKey p, ⟨some 0, some 0⟩)] else [],
         ignoreProps :=
           if truthy? p.src then ignorePropsInit
           else ignorePropsInit ++ ["async", "defer"],
         schedule := [.append p.target 0],
         elems := [(scriptKey p,
           buildElement p
             (if truthy? p.src then ignorePropsInit
              else ignorePropsInit ++ ["async", "defer"]))] }) := by
  rw [loadScript_notLoaded p path1 n1 initState (by simp [initState])]
  rw [loadScriptMain_fresh p (scriptKey p) n1
      { initState with
        prevPathCache := KV.set initState.prevPathCache (scriptKey p) path1 }
      rfl]
  by_cases htr : truthy? p.src = true
  · rw [createScript_src p (scriptKey p) _ htr]
    simp [htr, initState, KV.set, addKey, KV.get?]
  · have htr' : truthy? p.src = false := by simpa using htr
    rw [createScript_inline p (scriptKey p) _ htr']
    simp [htr', initState, KV.set, addKey, KV.get?]

/-- **C4** (amended): when a loaded key is called again with reload=true and
a changed navigation path and an element is tracked in InstanceRegistry, the
key is purged from LoadRegistry, TimingRegistry and InstanceRegistry
together, and the old element's removal is deferred to the next rendering
frame (scheduled before the new element's append, not performed on the
document during the call); PathRegistry is NOT purged: it retains the key,
updated to the current path.  The purged registries are observably
repopulated by the ensuing fresh load (fresh timing entry, fresh instance
entry). -/
theorem C4_theorem (p : ScriptProps) (path2 : String) (now : Nat)
    (st : LoaderState) (sc : ScriptCacheProps) (e : Nat) (p1 : String)
    (hsc : KV.get? st.scriptCache (scriptKey p) = some sc)
    (hscript : sc.script = some e)
    (hload : st.loadCache.contains (scriptKey p) = true)
    (hkey : scriptKey p ≠ "")
    (hprev : KV.get? st.prevPathCache (scriptKey p) = some p1)
    (hp1 : p1 ≠ "") (hne : path2 ≠ p1)
    (hreload : p.reload = true) (hsrc : truthy? p.src = true) :
    purgeForReload (scriptKey p) p.target st =
      { st with
        loadCache := delKey st.loadCache (scriptKey p),
        scriptCache := KV.del st.scriptCache (scriptKey p),
        startTimeCache := KV.del st.startTimeCache (scriptKey p),
        schedule := st.schedule ++ [.remove p.target e] } ∧
    (loadScript p path2 now st).1 = .pending st.elems.length ∧
    (loadScript p path2 now st).2.schedule =
      st.schedule ++ [.remove p.target e, .append p.target st.elems.length] ∧
    KV.get? (loadScript p path2 now st).2.prevPathCache (scriptKey p) = some path2 ∧
    KV.get? (loadScript p path2 now st).2.startTimeCache (scriptKey p) = some now ∧
    KV.get? (loadScript p path2 now st).2.scriptCache (scriptKey p) =
      some ⟨some st.elems.length, some st.elems.length⟩ := by
  have hR : (pathChangedOf (KV.get? st.prevPathCache (scriptKey p)) path2
      && p.reload) = true := by
    rw [hprev, hreload]
    simp [pathChangedOf, hp1, hne]
  have hrun : loadScript p path2 now st =
      (.pending st.elems.length,
       { startTimeCache :=
           KV.set (KV.del st.startTimeCache (scriptKey p)) (scriptKey p) now,
         prevPathCache := KV.set st.prevPathCache (scriptKey p) path2,
         loadCache := addKey (delKey st.loadCache (scriptKey p)) (scriptKey p),
         scriptCache := KV.set (KV.del st.scriptCache (scriptKey p)) (scriptKey p)
           ⟨some st.elems.length, some st.elems.length⟩,
         ignoreProps := st.ignoreProps,
         schedule := (st.schedule ++ [.remove p.target e]) ++
           [.append p.target st.elems.length],
         elems := st.elems ++ [(scriptKey p, buildElement p st.ignoreProps)] }) := by
    rw [loadScript_reload p path2 now st hkey hload hR]
    rw [purgeForReload_hit (scriptKey p) p.target
        { st with prevPathCache := KV.set st.prevPathCache (scriptKey p) path2 }
        sc e hsc hscript]
    rw [loadScriptMain_fresh p (scriptKey p) now
        { startTimeCache := KV.del st.startTimeCache (scriptKey p),
          prevPathCache := KV.set st.prevPathCache (scriptKey p) path2,
          loadCache := delKey st.loadCache (scriptKey p),
          scriptCache := KV.del st.scriptCache (scriptKey p),
          ignoreProps := st.ignoreProps,
          schedule := st.schedule ++ [.remove p.target e],
          elems := st.elems }
        (KV.get?_del_self _ _)]
    rw [createScript_src p (scriptKey p) _ hsrc]
    have hstamp : (KV.get? (KV.del st.startTimeCache (scriptKey p))
        (scriptKey p)).isSome = false := by
      rw [KV.get?_del_self]
      rfl
    simp [hstamp]
  refine ⟨purgeForReload_hit (scriptKey p) p.target st sc e hsc hscript,
    ?_, ?_, ?_, ?_, ?_⟩
  · rw [hrun]
  · rw [hrun]
    simp
  · rw [hrun]
    simp only
    exact KV.get?_set_self _ _ _
  · rw [hrun]
    simp only
    exact KV.get?_set_self _ _ _
  · rw [hrun]
    simp only
    exact KV.get?_set_self _ _ _

/-- **C2** (amended): for any key that is nonempty (an `id` or `src` is
present), calling `loadScript` twice with the same descriptor from the
pristine state, with `reload` false or the navigation path unchanged,
returns the resolved `{status: true, event: "already loaded"}` result on the
second call, and exactly one script element is created and scheduled for
append in total. -/
theorem C2_theorem (p : ScriptProps) (path1 path2 : String) (n1 n2 : Nat)
    (hkey : scriptKey p ≠ "") (hnav : p.reload = false ∨ path2 = path1) :
    (runCalls initState [⟨p, path1, n1⟩, ⟨p, path2, n2⟩]).2[1]? =
      some (.resolved true "already loaded") ∧
    (runCalls initState [⟨p, path1, n1⟩, ⟨p, path2, n2⟩]).1.elems.length = 1 ∧
    (runCalls initState [⟨p, path1, n1⟩, ⟨p, path2, n2⟩]).1.schedule =
      [.append p.target 0] := by
  have h2 : loadScript p path2 n2 (loadScript p path1 n1 initState).2 =
      (.resolved true "already loaded",
       { (loadScript p path1 n1 initState).2 with
         prevPathCache :=
           KV.set (loadScript p path1 n1 initState).2.prevPathCache
             (scriptKey p) path2 }) := by
    apply loadScript_short p path2 n2 _ hkey
    · rw [firstCall_init]
      simp
    · rw [firstCall_init]
      rcases hnav with h | h
      · simp [h]
      · subst h
        simp [pathChangedOf, KV.get?]
  simp only [runCalls, h2]
  rw [firstCall_init]
  simp

/-- **C3** (amended): for a key with a source URL, a second call made before
the load settles does NOT return the identical pending promise cached in
InstanceRegistry: the mid-flight branch is unreachable, and the second call
is short-circuited to a fresh resolved `already loaded` result, while the
cached entry still holds the original pending promise; no duplicate element
is created by the second call. -/
theorem C3_theorem (p : ScriptProps) (path1 path2 : String) (n1 n2 : Nat)
    (hsrc : truthy? p.src = true) (hnav : p.reload = false ∨ path2 = path1) :
    (runCalls initState [⟨p, path1, n1⟩, ⟨p, path2, n2⟩]).2[0]? =
      some (.pending 0) ∧
    (runCalls initState [⟨p, path1, n1⟩, ⟨p, path2, n2⟩]).2[1]? =
      some (.resolved true "already loaded") ∧
    KV.get? (runCalls initState [⟨p, path1, n1⟩, ⟨p, path2, n2⟩]).1.scriptCache
      (scriptKey p) = some ⟨some 0, some 0⟩ ∧
    (runCalls initState [⟨p, path1, n1⟩, ⟨p, path2, n2⟩]).1.elems.length = 1 := by
  have hkey := scriptKey_ne_of_src p hsrc
  have h2 : loadScript p path2 n2 (loadScript p path1 n1 initState).2 =
      (.resolved true "already loaded",
       { (loadScript p path1 n1 initState).2 with
         prevPathCache :=
           KV.set (loadScript p path1 n1 initState).2.prevPathCache
             (scriptKey p) path2 }) := by
    apply loadScript_short p path2 n2 _ hkey
    · rw [firstCall_init]
      simp
    · rw [firstCall_init]
      rcases hnav with h | h
      · simp [h]
      · subst h
        simp [pathChangedOf, KV.get?]
  simp only [runCalls, h2]
  rw [firstCall_init]
  simp [hsrc, KV.get?]

/-- **C5**: a descriptor without a source URL that creates a new element
never gets the `async`/`defer` attributes (even when the descriptor supplies
them: the call pushes both names onto the blocklist first), the element is
tagged `data-load="inline"`, the call returns the resolved
`{status: true, event: "inline script"}`, and nothing is cached in
InstanceRegistry for the key.  Well-cased descriptor keys are assumed (the
TypeScript props type has no key that lower-cases to `async`/`defer` other
than themselves). -/
theorem C5_theorem (p : ScriptProps) (path : String) (now : Nat)
    (st : LoaderState)
    (hsrc : truthy? p.src = false)
    (hwa : ∀ kv ∈ p.entries, toLowerJS kv.1 = "async" → kv.1 = "async")
    (hwd : ∀ kv ∈ p.entries, toLowerJS kv.1 = "defer" → kv.1 = "defer")
    (hnl : st.loadCache.contains (scriptKey p) = false)
    (hnc : KV.get? st.scriptCache (scriptKey p) = none) :
    (loadScript p path now st).1 = .resolved true "inline script" ∧
    (loadScript p path now st).2.scriptCache = st.scriptCache ∧
    (loadScript p path now st).2.elems =
      st.elems ++ [(scriptKey p,
        buildElement p (st.ignoreProps ++ ["async", "defer"]))] ∧
    (buildElement p (st.ignoreProps ++ ["async", "defer"])).getAttribute "async"
      = none ∧
    (buildElement p (st.ignoreProps ++ ["async", "defer"])).getAttribute "defer"
      = none ∧
    (buildElement p (st.ignoreProps ++ ["async", "defer"])).getAttribute
      "data-load" = some "inline" := by
  have hnl' : ((scriptKey p != "") && st.loadCache.contains (scriptKey p))
      = false := by
    have hmm : scriptKey p ∉ st.loadCache := by simpa using hnl
    simp [hmm]
  have hrun : loadScript p path now st =
      (.resolved true "inline script",
       { startTimeCache :=
           if (KV.get? st.startTimeCache (scriptKey p)).isSome then
             st.startTimeCache
           else KV.set st.startTimeCache (scriptKey p) now,
         prevPathCache := KV.set st.prevPathCache (scriptKey p) path,
         loadCache := addKey st.loadCache (scriptKey p),
         scriptCache := st.scriptCache,
         ignoreProps := st.ignoreProps ++ ["async", "defer"],
         schedule := st.schedule ++ [.append p.target st.elems.length],
         elems := st.elems ++ [(scriptKey p,
           buildElement p (st.ignoreProps ++ ["async", "defer"]))] }) := by
    rw [loadScript_notLoaded p path now st hnl']
    rw [loadScriptMain_fresh p (scriptKey p) now
        { st with prevPathCache := KV.set st.prevPathCache (scriptKey p) path }
        hnc]
    rw [createScript_inline p (scriptKey p) _ hsrc]
  refine ⟨by rw [hrun], by rw [hrun], by rw [hrun], ?_, ?_, ?_⟩
  · exact buildElement_excludes p _ "async" (by simp) (Or.inl rfl) hwa
  · exact buildElement_excludes p _ "defer" (by simp) (Or.inr rfl) hwd
  · exact buildElement_dataLoad_inline p _ hsrc

/-- **C6**: a descriptor with a source URL that creates a new element is
tagged `data-load=<requested load strategy>`; when the strategy is
`inWorker`, the element's `type` attribute is `text/partytown`, set after
the descriptor's own attributes are spread, so it wins over a
caller-supplied `type`. -/
theorem C6_theorem (p : ScriptProps) (path : String) (now : Nat)
    (st : LoaderState)
    (hsrc : truthy? p.src = true)
    (hnl : st.loadCache.contains (scriptKey p) = false)
    (hnc : KV.get? st.scriptCache (scriptKey p) = none) :
    (loadScript p path now st).2.elems =
      st.elems ++ [(scriptKey p, buildElement p st.ignoreProps)] ∧
    (buildElement p st.ignoreProps).getAttribute "data-load" =
      some (p.load.getD "afterHydration") ∧
    ((p.load.getD "afterHydration") = "inWorker" →
      (buildElement p st.ignoreProps).getAttribute "type" =
        some "text/partytown") := by
  have hnl' : ((scriptKey p != "") && st.loadCache.contains (scriptKey p))
      = false := by
    have hmm : scriptKey p ∉ st.loadCache := by simpa using hnl
    simp [hmm]
  have hrun :
      (loadScript p path now st).2.elems =
        st.elems ++ [(scriptKey p, buildElement p st.ignoreProps)] := by
    rw [loadScript_notLoaded p path now st hnl']
    rw [loadScriptMain_fresh p (scriptKey p) now
        { st with prevPathCache := KV.set st.prevPathCache (scriptKey p) path }
        hnc]
    rw [createScript_src p (scriptKey p) _ hsrc]
  exact ⟨hrun, buildElement_dataLoad_src p _ hsrc,
    fun hl => buildElement_type_inWorker p _ hl⟩

/-- **C7**: a freshly created script load settles exactly once: the
settlement is fixed by the first browser event whatever is delivered
afterwards; a load event resolves to `{status: true, event}` with the
caller's `onLoad` invoked before `onReady` prior to resolution; an error
event rejects with `{status: false, event}` and the caller's `onError` is
invoked with that rejection value. -/
theorem C7_theorem (p : ScriptProps) (path : String) (now : Nat)
    (st : LoaderState) (pid : Nat) (ev : String) (rest : List BrowserEvent)
    (_hfresh : (loadScript p path now st).1 = .pending pid) :
    (runEvents p (.load ev :: rest)).2 = some (.resolvedS true ev) ∧
    (runEvents p (.error ev :: rest)).2 = some (.rejectedS false ev) ∧
    runEvents p [.load ev] =
      ((if p.onLoad then [CbCall.onLoad ev] else []) ++
       (if p.onReady then [CbCall.onReady ev] else []),
       some (.resolvedS true ev)) ∧
    (p.onError = true →
      scriptLoadOutcome p [.error ev] =
        ([CbCall.onError false ev], some (.rejectedS false ev))) := by
  refine ⟨?_, ?_, ?_, ?_⟩
  · simpa [eventOutcome] using runEvents_first_event p (.load ev) rest
  · simpa [eventOutcome] using runEvents_first_event p (.error ev) rest
  · simp [runEvents, eventCbs, eventOutcome]
  · intro he
    simp [scriptLoadOutcome, runEvents, eventCbs, eventOutcome, he]

/-- **C8** (amended): when an InstanceRegistry entry for the key holds no
pending promise and the call is not short-circuited as already loaded (the
key is absent from LoadRegistry), `loadScript` returns the resolved
`{status: false, event: "Script load promise not found"}` diagnostic; the
result is a resolved value, never a thrown fault or rejection. -/
theorem C8_theorem (p : ScriptProps) (path : String) (now : Nat)
    (st : LoaderState) (sc : ScriptCacheProps)
    (hsc : KV.get? st.scriptCache (scriptKey p) = some sc)
    (hnp : sc.promise = none)
    (hnl : st.loadCache.contains (scriptKey p) = false) :
    (loadScript p path now st).1 =
      .resolved false "Script load promise not found" := by
  have hnl' : ((scriptKey p != "") && st.loadCache.contains (scriptKey p))
      = false := by
    have hmm : scriptKey p ∉ st.loadCache := by simpa using hnl
    simp [hmm]
  rw [loadScript_notLoaded p path now st hnl']
  rw [loadScriptMain_cached p (scriptKey p) now
      { st with prevPathCache := KV.set st.prevPathCache (scriptKey p) path }
      sc hsc]
  simp [hnp]

/-- **C9** (amended): when a new element is created for a descriptor with a
source URL from a state whose blocklist is untouched, every defined
descriptor field whose name is not in the reserved blocklist is set as an
attribute on the element; the names `acceptCharset`, `className`, `htmlFor`,
`httpEquiv`, `noModule` are mapped to `accept-charset`, `class`, `for`,
`http-equiv`, `noModule` respectively (so `noModule` is NOT lower-cased),
and every other name is lower-cased. -/
theorem C9_theorem (p : ScriptProps) (path : String) (now : Nat)
    (st : LoaderState)
    (hsrc : truthy? p.src = true)
    (hign : st.ignoreProps = ignorePropsInit)
    (hnl : st.loadCache.contains (scriptKey p) = false)
    (hnc : KV.get? st.scriptCache (scriptKey p) = none) :
    (loadScript p path now st).2.elems =
      st.elems ++ [(scriptKey p, buildElement p st.ignoreProps)] ∧
    (∀ name v, (name, some v) ∈ p.entries →
      ignorePropsInit.contains name = false →
      (attrNameOf name, v) ∈ (buildElement p st.ignoreProps).attrSets) ∧
    attrNameOf "acceptCharset" = "accept-charset" ∧
    attrNameOf "className" = "class" ∧
    attrNameOf "htmlFor" = "for" ∧
    attrNameOf "httpEquiv" = "http-equiv" ∧
    attrNameOf "noModule" = "noModule" ∧
    (∀ name,
      name ∉ ["acceptCharset", "className", "htmlFor", "httpEquiv", "noModule"] →
      attrNameOf name = toLowerJS name) := by
  have hnl' : ((scriptKey p != "") && st.loadCache.contains (scriptKey p))
      = false := by
    have hmm : scriptKey p ∉ st.loadCache := by simpa using hnl
    simp [hmm]
  refine ⟨?_, ?_, by decide, by decide, by decide, by decide, by decide, ?_⟩
  · rw [loadScript_notLoaded p path now st hnl']
    rw [loadScriptMain_fresh p (scriptKey p) now
        { st with prevPathCache := KV.set st.prevPathCache (scriptKey p) path }
        hnc]
    rw [createScript_src p (scriptKey p) _ hsrc]
  · intro name v hmem hig
    exact buildElement_attr_mem p st.ignoreProps name v hmem (by rw [hign]; exact hig)
  · intro name hn
    simp only [List.mem_cons, List.not_mem_nil, or_false, not_or] at hn
    obtain ⟨g1, g2, g3, g4, g5⟩ := hn
    have f1 : ¬("acceptCharset" = name) := fun hh => g1 hh.symm
    have f2 : ¬("className" = name) := fun hh => g2 hh.symm
    have f3 : ¬("htmlFor" = name) := fun hh => g3 hh.symm
    have f4 : ¬("httpEquiv" = name) := fun hh => g4 hh.symm
    have f5 : ¬("noModule" = name) := fun hh => g5 hh.symm
    simp [attrNameOf, KV.get?, DOMAttributeNames, f1, f2, f3, f4, f5]

/-- **C10** (amended): the `async`/`defer` exclusion is sticky across calls,
but only an element-creating call without a source URL mutates the
module-level blocklist (a no-src call that is short-circuited as already
loaded does not).  Concretely: (1) a fresh no-src call leaves `async` and
`defer` in the blocklist; (2) no call ever removes a blocklist entry; and
(3) from any state whose blocklist contains `async` and `defer`, every
element-creating call — including one with a source URL — copies neither
`async` nor `defer` onto the element (well-cased descriptor keys assumed). -/
theorem C10_theorem :
    (∀ (p : ScriptProps) (path : String) (now : Nat) (st : LoaderState),
      truthy? p.src = false →
      st.loadCache.contains (scriptKey p) = false →
      KV.get? st.scriptCache (scriptKey p) = none →
      "async" ∈ (loadScript p path now st).2.ignoreProps ∧
      "defer" ∈ (loadScript p path now st).2.ignoreProps) ∧
    (∀ (p : ScriptProps) (path : String) (now : Nat) (st : LoaderState)
      (x : String), x ∈ st.ignoreProps →
      x ∈ (loadScript p path now st).2.ignoreProps) ∧
    (∀ (p : ScriptProps) (path : String) (now : Nat) (st : LoaderState),
      "async" ∈ st.ignoreProps → "defer" ∈ st.ignoreProps →
      (∀ kv ∈ p.entries, toLowerJS kv.1 = "async" → kv.1 = "async") →
      (∀ kv ∈ p.entries, toLowerJS kv.1 = "defer" → kv.1 = "defer") →
      st.loadCache.contains (scriptKey p) = false →
      KV.get? st.scriptCache (scriptKey p) = none →
      (loadScript p path now st).2.elems =
        st.elems ++ [(scriptKey p, buildElement p
          (if truthy? p.src then st.ignoreProps
           else st.ignoreProps ++ ["async", "defer"]))] ∧
      (buildElement p
        (if truthy? p.src then st.ignoreProps
         else st.ignoreProps ++ ["async", "defer"])).getAttribute "async"
        = none ∧
      (buildElement p
        (if truthy? p.src then st.ignoreProps
         else st.ignoreProps ++ ["async", "defer"])).getAttribute "defer"
        = none) := by
  refine ⟨?_, ?_, ?_⟩
  · intro p path now st hsrc hnl hnc
    have hnl' : ((scriptKey p != "") && st.loadCache.contains (scriptKey p))
        = false := by
      have hmm : scriptKey p ∉ st.loadCache := by simpa using hnl
      simp [hmm]
    rw [loadScript_notLoaded p path now st hnl']
    rw [loadScriptMain_fresh p (scriptKey p) now
        { st with prevPathCache := KV.set st.prevPathCache (scriptKey p) path }
        hnc]
    rw [createScript_inline p (scriptKey p) _ hsrc]
    constructor
    · simp
    · simp
  · intro p path now st x hx
    exact ignoreProps_mono p path now st x hx
  · intro p path now st ha hd hwa hwd hnl hnc
    have hnl' : ((scriptKey p != "") && st.loadCache.contains (scriptKey p))
        = false := by
      have hmm : scriptKey p ∉ st.loadCache := by simpa using hnl
      simp [hmm]
    by_cases htr : truthy? p.src = true
    · refine ⟨?_, ?_, ?_⟩
      · rw [loadScript_notLoaded p path now st hnl']
        rw [loadScriptMain_fresh p (scriptKey p) now
            { st with prevPathCache := KV.set st.prevPathCache (scriptKey p) path }
            hnc]
        rw [createScript_src p (scriptKey p) _ htr]
        simp [htr]
      · simp only [htr, if_true]
        exact buildElement_excludes p st.ignoreProps "async" ha (Or.inl rfl) hwa
      · simp only [htr, if_true]
        exact buildElement_excludes p st.ignoreProps "defer" hd (Or.inr rfl) hwd
    · have htr' : truthy? p.src = false := by simpa using htr
      refine ⟨?_, ?_, ?_⟩
      · rw [loadScript_notLoaded p path now st hnl']
        rw [loadScriptMain_fresh p (scriptKey p) now
            { st with prevPathCache := KV.set st.prevPathCache (scriptKey p) path }
            hnc]
        rw [createScript_inline p (scriptKey p) _ htr']
        simp [htr']
      · simp only [htr', Bool.false_eq_true, if_false]
        exact buildElement_excludes p _ "async"
          (List.mem_append_left _ ha) (Or.inl rfl) hwa
      · simp only [htr', Bool.false_eq_true, if_false]
        exact buildElement_excludes p _ "defer"
          (List.mem_append_left _ hd) (Or.inr rfl) hwd

/-- **C1** (amended): for every key all of whose `loadScript` calls supply a
source URL, at most one live script element per key is scheduled at any
time: in every prefix of the frame-callback schedule produced by any call
sequence from the pristine state, the number of appends for the key exceeds
the number of removals by at most one. -/
theorem C1_theorem (calls : List CallInput) (k : String)
    (hsrc : ∀ c ∈ calls, scriptKey c.props = k → truthy? c.props.src = true)
    (pre suf : List FrameOp)
    (hpre : pre ++ suf = (runCalls initState calls).1.schedule) :
    countAppends (opsInFor (runCalls initState calls).1.elems k pre) ≤
      countRemoves (opsInFor (runCalls initState calls).1.elems k pre) + 1 := by
  obtain ⟨hb, hc, hl⟩ :=
    LoaderInv_runCalls k calls initState (LoaderInv_initState k) hsrc
  unfold KeyLive at hl
  rw [← hpre, opsInFor_append] at hl
  exact replay_prefix_bound _ _ _ hl

/-! ### Counterexamples and witnesses -/

/-- **C1** counterexample: the claim fails as stated.  Two calls with no
`id` and no `src` share the ScriptKey `""`; because `hasLoaded` tests the
JS truthiness of `key && LoadCache.has(key)`, the empty key is never
considered loaded, so both calls create and schedule an element: two
appends for one key with no prior removal. -/
theorem C1_counterexample :
    countAppends (opsInFor
      (runCalls initState [⟨emptyProps, "/", 0⟩, ⟨emptyProps, "/", 1⟩]).1.elems ""
      (runCalls initState [⟨emptyProps, "/", 0⟩, ⟨emptyProps, "/", 1⟩]).1.schedule)
      = 2 ∧
    countRemoves (opsInFor
      (runCalls initState [⟨emptyProps, "/", 0⟩, ⟨emptyProps, "/", 1⟩]).1.elems ""
      (runCalls initState [⟨emptyProps, "/", 0⟩, ⟨emptyProps, "/", 1⟩]).1.schedule)
      = 0 := by
  decide

/-- **C1** witness: the amended theorem applied to one concrete `src` call. -/
theorem C1_witness :
    countAppends (opsInFor (runCalls initState [⟨propsAS, "/", 0⟩]).1.elems "as"
      (runCalls initState [⟨propsAS, "/", 0⟩]).1.schedule) ≤
    countRemoves (opsInFor (runCalls initState [⟨propsAS, "/", 0⟩]).1.elems "as"
      (runCalls initState [⟨propsAS, "/", 0⟩]).1.schedule) + 1 :=
  C1_theorem [⟨propsAS, "/", 0⟩] "as" (by decide)
    (runCalls initState [⟨propsAS, "/", 0⟩]).1.schedule [] (by simp)

/-- **C2** counterexample: with the empty key (no `id`, no `src`, `reload`
false, path unchanged) the second call returns `inline script`, not
`already loaded`, and a second element is created. -/
theorem C2_counterexample :
    (runCalls initState [⟨emptyProps, "/", 0⟩, ⟨emptyProps, "/", 1⟩]).2[1]? =
      some (.resolved true "inline script") ∧
    (runCalls initState [⟨emptyProps, "/", 0⟩, ⟨emptyProps, "/", 1⟩]).1.elems.length
      = 2 := by
  decide

/-- **C2** witness: the amended theorem at a concrete nonempty-key
descriptor. -/
theorem C2_witness :
    (runCalls initState [⟨propsAS, "/", 0⟩, ⟨propsAS, "/", 1⟩]).2[1]? =
      some (.resolved true "already loaded") ∧
    (runCalls initState [⟨propsAS, "/", 0⟩, ⟨propsAS, "/", 1⟩]).1.elems.length = 1 ∧
    (runCalls initState [⟨propsAS, "/", 0⟩, ⟨propsAS, "/", 1⟩]).1.schedule =
      [.append propsAS.target 0] :=
  C2_theorem propsAS "/" "/" 0 1 (by decide) (Or.inr rfl)

/-- **C3** counterexample: two calls with the same `src` descriptor before
the load settles; the first returns the pending promise `0` and
InstanceRegistry still caches it, but the second call returns a fresh
resolved `already loaded` object — not the identical cached pending
promise. -/
theorem C3_counterexample :
    (runCalls initState [⟨propsAS, "/", 0⟩, ⟨propsAS, "/", 1⟩]).2[0]? =
      some (.pending 0) ∧
    KV.get? (runCalls initState
      [⟨propsAS, "/", 0⟩, ⟨propsAS, "/", 1⟩]).1.scriptCache "as" =
      some ⟨some 0, some 0⟩ ∧
    (runCalls initState [⟨propsAS, "/", 0⟩, ⟨propsAS, "/", 1⟩]).2[1]? =
      some (.resolved true "already loaded") ∧
    (runCalls initState [⟨propsAS, "/", 0⟩, ⟨propsAS, "/", 1⟩]).2[1]? ≠
      some (.pending 0) := by
  decide

/-- **C3** witness: the amended theorem at a concrete `src` descriptor. -/
theorem C3_witness :
    (runCalls initState [⟨propsAS, "/", 0⟩, ⟨propsAS, "/", 1⟩]).2[0]? =
      some (.pending 0) ∧
    (runCalls initState [⟨propsAS, "/", 0⟩, ⟨propsAS, "/", 1⟩]).2[1]? =
      some (.resolved true "already loaded") ∧
    KV.get? (runCalls initState
      [⟨propsAS, "/", 0⟩, ⟨propsAS, "/", 1⟩]).1.scriptCache (scriptKey propsAS) =
      some ⟨some 0, some 0⟩ ∧
    (runCalls initState [⟨propsAS, "/", 0⟩, ⟨propsAS, "/", 1⟩]).1.elems.length
      = 1 :=
  C3_theorem propsAS "/" "/" 0 1 (by decide) (Or.inr rfl)

/-- **C4** counterexample: a reload-triggered navigation change schedules
the old element's removal and recreates the key, but the key's PathRegistry
entry is NOT purged — it is still present (updated to the new path) right
after the call, so the claim that all four registries are purged together
fails. -/
theorem C4_counterexample :
    (runCalls initState
      [⟨propsAS, "/p1", 0⟩, ⟨propsASreload, "/p2", 1⟩]).1.schedule =
      [.append "body" 0, .remove "body" 0, .append "body" 1] ∧
    KV.get? (runCalls initState
      [⟨propsAS, "/p1", 0⟩, ⟨propsASreload, "/p2", 1⟩]).1.prevPathCache "as" =
      some "/p2" := by
  decide

/-- **C4** witness: the amended theorem at the concrete post-first-load
state. -/
theorem C4_witness :
    purgeForReload (scriptKey propsASreload) propsASreload.target st4 =
      { st4 with
        loadCache := delKey st4.loadCache (scriptKey propsASreload),
        scriptCache := KV.del st4.scriptCache (scriptKey propsASreload),
        startTimeCache := KV.del st4.startTimeCache (scriptKey propsASreload),
        schedule := st4.schedule ++ [.remove propsASreload.target 0] } ∧
    (loadScript propsASreload "/p2" 1 st4).1 = .pending st4.elems.length ∧
    (loadScript propsASreload "/p2" 1 st4).2.schedule =
      st4.schedule ++ [.remove propsASreload.target 0,
        .append propsASreload.target st4.elems.length] ∧
    KV.get? (loadScript propsASreload "/p2" 1 st4).2.prevPathCache
      (scriptKey propsASreload) = some "/p2" ∧
    KV.get? (loadScript propsASreload "/p2" 1 st4).2.startTimeCache
      (scriptKey propsASreload) = some 1 ∧
    KV.get? (loadScript propsASreload "/p2" 1 st4).2.scriptCache
      (scriptKey propsASreload) =
      some ⟨some st4.elems.length, some st4.elems.length⟩ :=
  C4_theorem propsASreload "/p2" 1 st4 ⟨some 0, some 0⟩ 0 "/p1"
    (by decide) (by decide) (by decide) (by decide) (by decide) (by decide)
    (by decide) (by decide) (by decide)

/-- **C5** witness: the theorem at a concrete inline descriptor that even
supplies an `async` entry. -/
theorem C5_witness :
    (loadScript propsInlineAsync "/" 0 initState).1 =
      .resolved true "inline script" ∧
    (loadScript propsInlineAsync "/" 0 initState).2.scriptCache =
      initState.scriptCache ∧
    (loadScript propsInlineAsync "/" 0 initState).2.elems =
      initState.elems ++ [(scriptKey propsInlineAsync,
        buildElement propsInlineAsync
          (initState.ignoreProps ++ ["async", "defer"]))] ∧
    (buildElement propsInlineAsync
      (initState.ignoreProps ++ ["async", "defer"])).getAttribute "async"
      = none ∧
    (buildElement propsInlineAsync
      (initState.ignoreProps ++ ["async", "defer"])).getAttribute "defer"
      = none ∧
    (buildElement propsInlineAsync
      (initState.ignoreProps ++ ["async", "defer"])).getAttribute "data-load"
      = some "inline" :=
  C5_theorem propsInlineAsync "/" 0 initState (by decide) (by decide)
    (by decide) (by decide) (by decide)

/-- **C6** witness: the theorem at a concrete `inWorker` descriptor, with
the `type` override read off. -/
theorem C6_witness :
    (loadScript propsWorker "/" 0 initState).2.elems =
      initState.elems ++ [(scriptKey propsWorker,
        buildElement propsWorker initState.ignoreProps)] ∧
    (buildElement propsWorker initState.ignoreProps).getAttribute "data-load" =
      some (propsWorker.load.getD "afterHydration") ∧
    (buildElement propsWorker initState.ignoreProps).getAttribute "type" =
      some "text/partytown" := by
  have h := C6_theorem propsWorker "/" 0 initState (by decide) (by decide)
    (by decide)
  exact ⟨h.1, h.2.1, h.2.2 (by decide)⟩

/-- **C7** witness: the theorem at a concrete descriptor supplying all three
callbacks, with the load and error single-event outcomes written out. -/
theorem C7_witness :
    runEvents propsCallbacks [.load "ev"] =
      ([CbCall.onLoad "ev", CbCall.onReady "ev"],
       some (.resolvedS true "ev")) ∧
    scriptLoadOutcome propsCallbacks [.error "ev"] =
      ([CbCall.onError false "ev"], some (.rejectedS false "ev")) := by
  have h := C7_theorem propsCallbacks "/" 0 initState 0 "ev" []
    (by decide)
  exact ⟨h.2.2.1, h.2.2.2 rfl⟩

/-- **C8** counterexample: an InstanceRegistry entry without a pending
promise whose key IS in LoadRegistry is short-circuited as
`already loaded` (status `true`), so the claim's unconditional conclusion
(`{status: false, event: "Script load promise not found"}`) fails. -/
theorem C8_counterexample :
    KV.get? stStrayLoaded.scriptCache (scriptKey propsK) =
      some { promise := none, script := some 0 } ∧
    (loadScript propsK "/" 0 stStrayLoaded).1 =
      .resolved true "already loaded" ∧
    (ScriptResult.resolved true "already loaded") ≠
      .resolved false "Script load promise not found" := by
  decide

/-- **C8** witness: the amended theorem at the concrete stray-entry state
whose key is not in LoadRegistry. -/
theorem C8_witness :
    (loadScript propsK "/" 0 stStrayFresh).1 =
      .resolved false "Script load promise not found" :=
  C8_theorem propsK "/" 0 stStrayFresh { promise := none, script := some 0 }
    (by decide) (by decide) (by decide)

/-- **C9** counterexample: a descriptor field named `noModule` is mapped by
`DOMAttributeNames` to the attribute `noModule`, not lower-cased to
`nomodule` as the claim states. -/
theorem C9_counterexample :
    ((runCalls initState [⟨propsNoModule, "/", 0⟩]).1.elems[0]?).map
      (fun kv => (kv.2.getAttribute "noModule", kv.2.getAttribute "nomodule")) =
      some (some "nm", none) := by
  decide

/-- **C9** witness: the amended theorem at a concrete descriptor with a
`className` entry, instantiated at that entry. -/
theorem C9_witness :
    (attrNameOf "className", "c") ∈
      (buildElement propsClassName initState.ignoreProps).attrSets :=
  (C9_theorem propsClassName "/" 0 initState (by decide) rfl (by decide)
    (by decide)).2.1 "className" "c" (by decide) (by decide)

/-- **C10** counterexample: a call without a source URL that is
short-circuited as already loaded (its key `xy` was loaded by an earlier
call with `id:"x"`, `src:"y"`) does not mutate the blocklist, so a later
`src` call still copies its `async` entry onto the element — refuting the
claim for "any single loadScript call without a source URL". -/
theorem C10_counterexample :
    truthy? propsKeyXY.src = false ∧
    (runCalls initState
      [⟨propsXY, "/", 0⟩, ⟨propsKeyXY, "/", 1⟩, ⟨propsCD, "/", 2⟩]).2[1]? =
      some (.resolved true "already loaded") ∧
    ((runCalls initState
      [⟨propsXY, "/", 0⟩, ⟨propsKeyXY, "/", 1⟩, ⟨propsCD, "/", 2⟩]).1.elems[1]?).map
      (fun kv => kv.2.getAttribute "async") = some (some "t") := by
  decide

/-- **C10** witness: part (1) of the amended theorem at a concrete fresh
no-src call. -/
theorem C10_witness :
    "async" ∈ (loadScript emptyProps "/" 0 initState).2.ignoreProps ∧
    "defer" ∈ (loadScript emptyProps "/" 0 initState).2.ignoreProps :=
  C10_theorem.1 emptyProps "/" 0 initState (by decide) (by decide) (by decide)
